import Mathlib

/-!
Verification of the PV-Power-Predictor backend (Flask dashboard for
photovoltaic production prediction).

The Python sources embedded here are:
  * `backend/model_handler.py` — `EnsembleModel`, `PVModelHandler`
    (loading, preprocessing, prediction, health check, reload);
  * `backend/nasa_power_client.py` — `NASAPowerGEOSITClient`
    (date validation, retry/backoff fetch loop);
  * `backend/app.py` — the `/api/predictions` endpoint `generate_predictions`.

Numeric cells are IEEE-754 doubles in the source (numpy/pandas).  They are
embedded as `FVal`: a rational for a finite double, plus the two infinities
and NaN.  The arithmetic used by the code (addition, multiplication,
`np.maximum`, pandas column means with `skipna=True`) is reproduced on
`FVal` following IEEE semantics; rounding of finite doubles is not modelled
(no claim depends on it).
-/

/-- Embedded IEEE-754 double: finite value, `+inf`, `-inf`, or NaN. -/
inductive FVal where
  | fin (q : ℚ)
  | pinf
  | ninf
  | nan
deriving DecidableEq

namespace FVal

/-- `np.isnan`. -/
def isNaN : FVal → Bool
  | nan => true
  | _ => false

/-- `np.isinf` (true for either infinity, false for NaN and finite values). -/
def isInf : FVal → Bool
  | pinf => true
  | ninf => true
  | _ => false

/-- A value that is `>= 0` in IEEE comparison (NaN compares false). -/
def nonneg : FVal → Bool
  | fin q => decide (0 ≤ q)
  | pinf => true
  | _ => false

/-- IEEE addition: NaN is absorbing, `+inf + -inf = NaN`. -/
def add : FVal → FVal → FVal
  | nan, _ => nan
  | _, nan => nan
  | pinf, ninf => nan
  | ninf, pinf => nan
  | pinf, _ => pinf
  | _, pinf => pinf
  | ninf, _ => ninf
  | _, ninf => ninf
  | fin a, fin b => fin (a + b)

/-- IEEE multiplication: NaN absorbing, `0 * inf = NaN`, sign rules. -/
def mul : FVal → FVal → FVal
  | nan, _ => nan
  | _, nan => nan
  | pinf, pinf => pinf
  | pinf, ninf => ninf
  | ninf, pinf => ninf
  | ninf, ninf => pinf
  | pinf, fin b => if b > 0 then pinf else if b < 0 then ninf else nan
  | ninf, fin b => if b > 0 then ninf else if b < 0 then pinf else nan
  | fin a, pinf => if a > 0 then pinf else if a < 0 then ninf else nan
  | fin a, ninf => if a > 0 then ninf else if a < 0 then pinf else nan
  | fin a, fin b => fin (a * b)

/-- `np.maximum x 0`: propagates NaN, clamps negative values to `0`. -/
def maxZero : FVal → FVal
  | nan => nan
  | pinf => pinf
  | ninf => fin 0
  | fin q => fin (max q 0)

instance : Add FVal := ⟨FVal.add⟩
instance : Zero FVal := ⟨FVal.fin 0⟩
instance : Mul FVal := ⟨FVal.mul⟩

theorem add_def (a b : FVal) : a + b = FVal.add a b := rfl

theorem zero_def : (0 : FVal) = FVal.fin 0 := rfl

theorem add_assoc' (a b c : FVal) : a + b + c = a + (b + c) := by
  show FVal.add (FVal.add a b) c = FVal.add a (FVal.add b c)
  cases a <;> cases b <;> cases c <;> simp [FVal.add] <;> ring

theorem add_zero' (a : FVal) : a + 0 = a := by
  show FVal.add a (FVal.fin 0) = a
  cases a <;> simp [FVal.add]

theorem zero_add' (a : FVal) : 0 + a = a := by
  show FVal.add (FVal.fin 0) a = a
  cases a <;> simp [FVal.add]

end FVal

/-!
## Pandas tables and `PVModelHandler.preprocess_data`

A table (`pandas.DataFrame` with all-numeric columns, as produced by the
NASA client and consumed by the model) is embedded column-wise: a list of
columns, each column a list of `FVal` cells.  All columns of a well-formed
frame have the same length (the number of rows); the per-column
preprocessing operations do not depend on that invariant.
-/

/-- One numeric column of a DataFrame. -/
abbrev PdColumn : Type := List FVal

/-- A DataFrame, stored as its list of (all-numeric) columns. -/
abbrev PdTable : Type := List PdColumn

namespace Pandas

/-- The finite (neither NaN nor infinite) entries of a column, as rationals. -/
def finVals (c : PdColumn) : List ℚ :=
  c.filterMap fun x => match x with
    | .fin q => some q
    | _ => none

/-- Mean of the finite entries of a column (defined when at least one exists). -/
def finMean (c : PdColumn) : ℚ :=
  (finVals c).sum / (finVals c).length

/-- Whether a column contains `+inf` / `-inf`. -/
def hasP (c : PdColumn) : Bool := c.any fun x => x = .pinf
def hasN (c : PdColumn) : Bool := c.any fun x => x = .ninf

/-- `Series.mean()` with pandas defaults (`skipna=True`): NaN cells are
dropped; the remaining cells are summed with IEEE addition and divided by
their count.  Hence a column with both infinities (or no non-NaN cell at
all) has mean NaN, a column with `+inf` only has mean `+inf`, etc. -/
def colMean (c : PdColumn) : FVal :=
  if hasP c ∧ hasN c then .nan
  else if hasP c then .pinf
  else if hasN c then .ninf
  else if (finVals c).length = 0 then .nan
  else .fin (finMean c)

/-- `Series.fillna(v)`: NaN cells become `v`; filling with NaN is a no-op
(pandas does not fill when the per-column fill value is itself NaN). -/
def fillnaCol (c : PdColumn) (v : FVal) : PdColumn :=
  c.map fun x => if x.isNaN then (if v.isNaN then x else v) else x

/-- `df.fillna(df.mean())`: per-column mean fill. -/
def fillnaMean (t : PdTable) : PdTable :=
  t.map fun c => fillnaCol c (colMean c)

/-- `df.replace([np.inf, -np.inf], np.nan)` on one column. -/
def replaceInfCol (c : PdColumn) : PdColumn :=
  c.map fun x => if x.isInf then .nan else x

/-- `np.isinf(...).any().any()`: whether any cell of the table is infinite. -/
def anyInf (t : PdTable) : Bool :=
  t.any fun c => c.any fun x => x.isInf

end Pandas

namespace PVModelHandler

open Pandas

/-- `PVModelHandler.preprocess_data` (model_handler.py lines 163-176):
first `fillna` with the per-column means, then — only if the table now
contains an infinite cell — replace both infinities with NaN and `fillna`
with the (freshly recomputed) per-column means. -/
def preprocess_data (t : PdTable) : PdTable :=
  let t1 := fillnaMean t
  if anyInf t1 then fillnaMean (t1.map replaceInfCol) else t1

end PVModelHandler

/-!
## Python errors and fitted models

A fitted scikit-learn regressor is opaque to the handler: all it exposes is
a `predict` capability (rows in, one value per row out, possibly raising)
and an optional `n_features_in_` attribute.  A raised Python exception is
embedded as a `PyErr` value travelling in `Except`.
-/

/-- An embedded Python exception, tagged with its class. -/
inductive PyErr where
  | valueError (msg : String)
  | typeError (msg : String)
  | keyError (key : String)
  | runtimeError (msg : String)
  | attrError (msg : String)
  | fileNotFound (msg : String)
  | stopIteration
  | generic (msg : String)
deriving DecidableEq

namespace PyErr

/-- The `str(e)` message carried by an exception. -/
def msg : PyErr → String
  | valueError m => m
  | typeError m => m
  | keyError k => k
  | runtimeError m => m
  | attrError m => m
  | fileNotFound m => m
  | stopIteration => "StopIteration"
  | generic m => m

/-- Whether the exception is a `ValueError` (`except ValueError` clauses). -/
def isValueError : PyErr → Bool
  | valueError _ => true
  | _ => false

end PyErr

/-- An opaque fitted regressor: `predict` (which may raise) plus the
optional `n_features_in_` attribute. -/
structure PredFn where
  nFeatures : Option ℕ
  run : PdTable → Except PyErr (List FVal)

/-- Number of rows of a table (length of its first column; `0` for a
column-less frame).  Matches `len(df)` on well-formed frames. -/
def nRows (t : PdTable) : ℕ :=
  match t with
  | [] => 0
  | c :: _ => c.length

/-- `df.empty` (true when either axis has length zero). -/
def dfEmpty (t : PdTable) : Bool :=
  t.isEmpty || nRows t = 0

/-!
## `EnsembleModel` (model_handler.py lines 8-47)

`predict` runs every base model on the input, then computes
`sum(self.weights[name] * predictions[name] for name in self.model_names)`.
Python's `sum` starts from the integer `0`; with at least one model the
first addition broadcasts that scalar away and the result is a numpy
vector, while with no models the scalar `0` itself is returned.  A model
name absent from the weight dict raises `KeyError` at its turn in the
generator.  numpy's `+` on equal-length vectors is elementwise (embedded
with `zipWith`; the sources only ever combine equal-length outputs).
-/

/-- Result of the Python `sum(...)` over the weighted predictions: the
scalar `0` for an empty model dict, else a numpy vector. -/
inductive EnsembleOut where
  | scalarZero
  | vec (v : List FVal)
deriving DecidableEq

/-- Elementwise numpy addition of equal-length vectors. -/
def vAdd (u v : List FVal) : List FVal := List.zipWith FVal.add u v

/-- numpy scalar-times-vector. -/
def sMul (w : FVal) (v : List FVal) : List FVal := v.map fun x => FVal.mul w x

namespace EnsembleModel

/-- The weighted terms of the blend, in `model_names` order; the first
model name missing from the weight dict raises `KeyError`. -/
def blendTerms (ws : List (String × FVal)) :
    List (String × List FVal) → Except PyErr (List (List FVal))
  | [] => .ok []
  | (name, pred) :: rest =>
    match ws.lookup name with
    | none => .error (.keyError name)
    | some w => (blendTerms ws rest).map fun ts => sMul w pred :: ts

/-- `EnsembleModel.predict`: run every base model (dict iteration order),
then left-fold the weighted terms starting from Python's scalar `0`. -/
def predictFn (ms : List (String × PredFn)) (ws : List (String × FVal))
    (X : PdTable) : Except PyErr EnsembleOut := do
  let preds ← ms.mapM fun p => (p.2.run X).map fun v => (p.1, v)
  let ts ← blendTerms ws preds
  match ts with
  | [] => pure .scalarZero
  | t :: rest => pure (.vec (rest.foldl vAdd t))

/-- `EnsembleModel.n_features_in_`: taken from the first base model
(`next(iter(self.models.values()))`, raising on an empty dict). -/
def nFeaturesOf (ms : List (String × PredFn)) : Except PyErr (Option ℕ) :=
  match ms with
  | [] => .error .stopIteration
  | m :: _ => .ok m.2.nFeatures

end EnsembleModel

/-- The object held in `PVModelHandler.model` after a successful load:
either a direct regressor or the `EnsembleModel` wrapper. -/
inductive ModelObj where
  | direct (f : PredFn)
  | ensemble (ms : List (String × PredFn)) (ws : List (String × FVal))

namespace ModelObj

/-- `self.model.predict(df)` through either shape. -/
def predictObj : ModelObj → PdTable → Except PyErr EnsembleOut
  | direct f, X => (f.run X).map .vec
  | ensemble ms ws, X => EnsembleModel.predictFn ms ws X

/-- The feature count recorded by `_extract_model_info`. -/
def featureCount : ModelObj → Except PyErr (Option ℕ)
  | direct f => .ok f.nFeatures
  | ensemble ms _ => EnsembleModel.nFeaturesOf ms

end ModelObj

/-!
## Loading (`PVModelHandler.load_model`, model_handler.py lines 59-108)

The unpickled object is dispatched on its runtime shape: a direct object
with a `predict` attribute; a dict holding both `models` and `weights`
(wrapped as `EnsembleModel`); a dict holding a model under one of several
recognized keys; anything else raises.  On any failure the handler ends
with `model = None` and `is_loaded = False` (the previous artifact is not
restored); on success the new artifact is installed and
`_extract_model_info` records the feature count.
-/

/-- A value stored under a key of an unpickled dict. -/
inductive PickleVal where
  | fnVal (f : PredFn)
  | modelsVal (ms : List (String × PredFn))
  | weightsVal (ws : List (String × FVal))
  | opaqueVal

namespace PickleVal

/-- `hasattr(value, 'predict')`. -/
def hasPredict : PickleVal → Bool
  | fnVal _ => true
  | _ => false

end PickleVal

/-- The object recovered by `pickle.load`. -/
inductive PickleObj where
  | withPredict (f : PredFn)
  | pyDict (entries : List (String × PickleVal))
  | otherObj (typeName : String)

/-- The recognized single-model dictionary keys (model_handler.py line 84). -/
def possibleKeys : List String :=
  ["model", "trained_model", "clf", "regressor", "estimator"]

/-- Scan `possible_keys` in order for an entry with a `predict` attribute. -/
def findModelKey (es : List (String × PickleVal)) : List String → Option PredFn
  | [] => none
  | k :: rest =>
    match es.lookup k with
    | some (.fnVal f) => some f
    | _ => findModelKey es rest

/-- Shape dispatch of `load_model` on the unpickled object. -/
def dispatchLoad : PickleObj → Except PyErr ModelObj
  | .withPredict f => .ok (.direct f)
  | .pyDict es =>
    if (es.lookup "models").isSome ∧ (es.lookup "weights").isSome then
      match es.lookup "models", es.lookup "weights" with
      | some (.modelsVal ms), some (.weightsVal ws) => .ok (.ensemble ms ws)
      | _, _ => .error (.attrError "ensemble dict entries are not dicts")
    else
      match findModelKey es possibleKeys with
      | some f => .ok (.direct f)
      | none =>
        .error (.valueError
          ("No model with predict method found. Available keys: " ++
            String.intercalate ", " (es.map Prod.fst)))
  | .otherObj ty => .error (.valueError ("Loaded object type " ++ ty ++ " is not supported."))

/-- The mutable `PVModelHandler` state (the fields the claims depend on:
the active model object, the loaded flag, and `model_info['feature_count']`;
`model_path` is carried for error messages). -/
structure HandlerState where
  model_path : String
  model : Option ModelObj
  is_loaded : Bool
  feature_count : Option ℕ

namespace PVModelHandler

/-- `load_model`: `content = none` models a missing artifact file
(`FileNotFoundError` before unpickling).  Any failure — missing file,
unsupported shape, or `_extract_model_info` raising — leaves the handler
with `model = None`, `is_loaded = False` and re-raises; success installs
the new model and sets `is_loaded = True`. -/
def load_model (h : HandlerState) (content : Option PickleObj) :
    HandlerState × Except PyErr Unit :=
  match content with
  | none =>
    ({ h with model := none, is_loaded := false },
      .error (.fileNotFound ("Model file not found: " ++ h.model_path)))
  | some obj =>
    match dispatchLoad obj with
    | .error e => ({ h with model := none, is_loaded := false }, .error e)
    | .ok m =>
      match m.featureCount with
      | .error e => ({ h with model := none, is_loaded := false }, .error e)
      | .ok fc =>
        ({ h with model := some m, is_loaded := true, feature_count := fc }, .ok ())

/-- `reload_model` simply calls `load_model` again (model_handler.py
lines 315-317); `content` is whatever the artifact file now holds. -/
def reload_model (h : HandlerState) (content : Option PickleObj) :
    HandlerState × Except PyErr Unit :=
  load_model h content

/-- `PVModelHandler.predict` (model_handler.py lines 178-214): guard
checks, `validate_input_data` (raises on an empty frame), preprocessing,
the model call, the `np.maximum(..., 0)` clamp, and the length check.
When the model dict of an ensemble is empty the blend is Python's scalar
`0`, on which `len()` raises `TypeError`. -/
def predict (h : HandlerState) (df : PdTable) : Except PyErr (List FVal) :=
  if ¬ h.is_loaded then .error (.runtimeError "Model is not loaded")
  else
    match h.model with
    | none => .error (.runtimeError "Model object is None")
    | some m =>
      if dfEmpty df then .error (.valueError "Input data is empty")
      else
        match m.predictObj (preprocess_data df) with
        | .error e => .error e
        | .ok .scalarZero => .error (.typeError "object of type numpy.int64 has no len()")
        | .ok (.vec v) =>
          let clamped := v.map FVal.maxZero
          if clamped.length ≠ nRows df then .error (.valueError "Prediction length mismatch")
          else .ok clamped

/-- The base synthetic probe frame of `validate_model_health`: five named
columns with one row (`ALLSKY_SFC_SW_DWN=20.5`, `T2M=25.0`,
`CLOUD_AMT=30.0`, `WS2M=3.5`, `RH2M=60.0`). -/
def testDataBase : PdTable :=
  [[.fin (41/2)], [.fin 25], [.fin 30], [.fin (7/2)], [.fin 60]]

/-- The probe frame after dummy padding: while the column count is below
the recorded feature count, columns `[1.0]` are appended.  A falsy
`feature_count` (absent or `0`) skips padding. -/
def testData (fc : Option ℕ) : PdTable :=
  match fc with
  | none => testDataBase
  | some n => testDataBase ++ List.replicate (n - 5) [FVal.fin 1]

/-- The structured health report: `message` holds the `"message"` field
when healthy and the `"error"` field otherwise. -/
structure HealthReport where
  healthy : Bool
  test_prediction : Option FVal
  message : String
deriving DecidableEq

/-- `validate_model_health` (model_handler.py lines 266-313): guard
checks, then the synthetic probe through `predict` inside a `try` that
converts every exception into an unhealthy report.  The success test is
`len(test_prediction) == 1 and not np.isnan(test_prediction[0])`. -/
def validate_model_health (h : HandlerState) : HealthReport :=
  if ¬ h.is_loaded then ⟨false, none, "Model not loaded"⟩
  else
    match h.model with
    | none => ⟨false, none, "Model object is None"⟩
    | some _ =>
      match predict h (testData h.feature_count) with
      | .error e => ⟨false, none, "Model validation failed: " ++ e.msg⟩
      | .ok [x] =>
        if x.isNaN then ⟨false, none, "Invalid test prediction"⟩
        else ⟨true, some x, "Model validation successful"⟩
      | .ok _ => ⟨false, none, "Invalid test prediction"⟩

/-- The parameter list of the bound method `PVModelHandler.predict`
(`def predict(self, df)`): one positional parameter, no `capacity`. -/
def predictParams : List String := ["df"]

/-- Python call semantics of `handler.predict(df, kw=value)`: a keyword
argument that names no parameter of the callee raises `TypeError` before
the body runs. -/
def predictKwCall (h : HandlerState) (df : PdTable) (kw : String) :
    Except PyErr (List FVal) :=
  if kw = "df" then
    .error (.typeError "predict() got multiple values for argument df")
  else if predictParams.contains kw then predict h df
  else .error (.typeError ("predict() got an unexpected keyword argument " ++ kw))

end PVModelHandler

/-!
## Dates

`datetime.strptime(s, "%Y%m%d")` / `"%Y-%m-%d"` either returns a calendar
date (at midnight) or raises `ValueError`; a date argument of a validation
routine is therefore embedded as `Option PyDate`, `none` standing for an
input the parser rejects.  Comparisons and day differences of midnight
datetimes coincide with comparisons and differences of day ordinals, so a
date is interpreted through its ordinal (days since 1970-01-01, computed
by the standard civil-calendar formula).
-/

/-- A parsed calendar date. -/
structure PyDate where
  year : ℤ
  month : ℤ
  day : ℤ
deriving DecidableEq

namespace PyDate

/-- Days since 1970-01-01 of a civil date (Gregorian, proleptic). -/
def toOrd (dt : PyDate) : ℤ :=
  let y : ℤ := if dt.month ≤ 2 then dt.year - 1 else dt.year
  let era : ℤ := (if 0 ≤ y then y else y - 399) / 400
  let yoe : ℤ := y - era * 400
  let mp : ℤ := if dt.month > 2 then dt.month - 3 else dt.month + 9
  let doy : ℤ := (153 * mp + 2) / 5 + dt.day - 1
  let doe : ℤ := yoe * 365 + yoe / 4 - yoe / 100 + doy
  era * 146097 + doe - 719468

end PyDate

/-!
## `NASAPowerGEOSITClient` (nasa_power_client.py)

The real-time clock enters in two places: `self.max_date = datetime.now()
- timedelta(days=3)` and `days_ago = (datetime.now() - end).days`.  The
current instant is embedded as `nowOrd + frac` days since the epoch, with
`nowOrd : ℤ` the current civil day and `frac : ℚ`, `0 ≤ frac < 1`, the
time of day.  `end` is a midnight datetime, so `(now - end).days`
(`timedelta.days` floors) is `⌊nowOrd + frac - endOrd⌋`.
-/

namespace NASAPowerGEOSITClient

/-- Ordinal of `self.min_date = datetime(2020, 1, 1)`. -/
def minDateOrd : ℤ := PyDate.toOrd ⟨2020, 1, 1⟩

/-- Outcome of `validate_dates`: a raised `ValueError`, or success
(`return True`) together with the `warnings.warn` messages issued. -/
inductive DateCheck where
  | fail (msg : String)
  | okWith (warnings : List String)
deriving DecidableEq

/-- `validate_dates` (nasa_power_client.py lines 93-120): `ValueError` on
unparseable input, on `start > end`, and on `start < min_date`; warnings
(no failure) when `end > max_date` or when `(now - end).days < 3`. -/
def validate_dates (nowOrd : ℤ) (frac : ℚ) (start_date end_date : Option PyDate) :
    DateCheck :=
  match start_date, end_date with
  | some s, some e =>
    if s.toOrd > e.toOrd then .fail "Start date must be before end date"
    else if s.toOrd < minDateOrd then
      .fail "GEOS-IT data starts from 2020-01-01. Provided start date is earlier."
    else
      let w1 := if ((e.toOrd : ℚ) > (nowOrd : ℚ) + frac - 3) then
        ["GEOS-IT data may not be available after the max date."] else []
      let w2 := if (⌊(nowOrd : ℚ) + frac - (e.toOrd : ℚ)⌋ < 3) then
        ["Requesting recent data. GEOS-IT typically has a 3-4 day delay."] else []
      .okWith (w1 ++ w2)
  | _, _ => .fail "Dates must be in YYYYMMDD format"

/-- Whether the character list `n` occurs contiguously at the head of `h`. -/
def headMatch : List Char → List Char → Bool
  | [], _ => true
  | _ :: _, [] => false
  | a :: n, b :: h => a = b && headMatch n h

/-- Whether the character list `n` occurs contiguously anywhere in `h`. -/
def subMatch (n : List Char) : List Char → Bool
  | [] => n.isEmpty
  | b :: h => headMatch n (b :: h) || subMatch n h

/-- Python `'error' in msg.lower()`. -/
def mentionsError (m : String) : Bool :=
  subMatch "error".toList m.toLower.toList

/-- The parsed JSON body of a successful (2xx) NASA POWER response, reduced
to what `fetch_data` inspects: the `messages` list (absence of the key
behaves as the empty list) and an opaque payload identity. -/
structure NasaResp where
  messages : List String
  body : ℕ
deriving DecidableEq

/-- `'messages' in data and any('error' in msg.lower() for msg in ...)`. -/
def hasApiError (d : NasaResp) : Bool :=
  d.messages.any mentionsError

/-- One attempt's transport outcome.  `reqExc` is any
`requests.exceptions.RequestException`: a timeout, a non-2xx status from
`raise_for_status()`, or a malformed JSON body from `response.json()`. -/
inductive TransportOutcome where
  | success (d : NasaResp)
  | reqExc (msg : String)

/-- Final outcome of `fetch_data`.  `apiError` is the non-retryable
`Exception("API Error: ...")` raised for an embedded error message;
`unavailable` is the exception raised after exhausting retries;
`noAttempt` is the implicit `None` returned when `max_retries = 0`
(the loop body never runs). -/
inductive FetchOutcome where
  | ok (d : NasaResp)
  | apiError (msgs : List String)
  | unavailable (msg : String)
  | noAttempt
deriving DecidableEq

/-- A trace of a `fetch_data` run: the outcome, how many attempts were
made, and the `time.sleep` durations in order. -/
structure FetchTrace where
  result : FetchOutcome
  attempts : ℕ
  sleeps : List ℚ
deriving DecidableEq

/-- The retry loop of `fetch_data` (nasa_power_client.py lines 199-229):
`remaining` counts loop iterations still allowed, `attempt` the 0-based
attempt index.  After a transport failure, when further attempts remain,
the loop sleeps `retry_delay * 2 ** attempt` and retries; on the last
attempt it raises carrying the last underlying error. -/
def fetchGo (tr : ℕ → TransportOutcome) (delay : ℚ) (maxR : ℕ) :
    ℕ → ℕ → List ℚ → FetchTrace
  | 0, attempt, acc => ⟨.noAttempt, attempt, acc⟩
  | r + 1, attempt, acc =>
    match tr attempt with
    | .success d =>
      if hasApiError d then ⟨.apiError d.messages, attempt + 1, acc⟩
      else ⟨.ok d, attempt + 1, acc⟩
    | .reqExc e =>
      if attempt < maxR - 1 then
        fetchGo tr delay maxR r (attempt + 1) (acc ++ [delay * 2 ^ attempt])
      else
        ⟨.unavailable ("Failed to fetch GEOS-IT data after " ++ toString maxR ++
          " attempts: " ++ e), attempt + 1, acc⟩

/-- `fetch_data`, abstracted over the transport (one outcome per attempt
index); URL construction and parameter selection do not influence the
retry behaviour and are omitted from the trace. -/
def fetch_data (tr : ℕ → TransportOutcome) (max_retries : ℕ) (retry_delay : ℚ) :
    FetchTrace :=
  fetchGo tr retry_delay max_retries max_retries 0 []

end NASAPowerGEOSITClient

/-!
## The `/api/predictions` endpoint (app.py lines 88-166)

The endpoint is embedded with its effectful collaborators as parameters:
the global handler reference and the result of
`get_pv_data_for_dashboard(...)` (`.error msg` when that call raises, with
`msg` the raised exception's message).  The handler call at line 121 is
`model_handler.predict(df, capacity=capacity)` — a keyword call, embedded
through `predictKwCall`.
-/

/-- The frame returned by `get_pv_data_for_dashboard`: a date index plus
numeric columns. -/
structure DashFrame where
  index : List PyDate
  table : PdTable

/-- One element of the endpoint's `predictions` list.  Display rounding of
floats (`round(float(x), 1)`) is not modelled; no claim reaches this data
(see `generate_predictions`). -/
structure PredRow where
  date : PyDate
  pv_production_kwh : FVal
  financial_savings_mad : FVal

/-- An HTTP response of the endpoint: status code, the `error` field of an
error body, the `predictions` rows and the summary's `total_days` field of
a success body. -/
structure HttpResponse where
  status : ℕ
  error : Option String
  rows : Option (List PredRow)
  total_days : Option ℕ

/-- `calculate_financial_savings` (model_handler.py lines 226-231):
elementwise multiplication by the MAD-per-kWh rate. -/
def calculate_financial_savings (preds : List FVal) (rate : ℚ) : List FVal :=
  preds.map fun x => FVal.mul x (.fin rate)

/-- `generate_predictions` (app.py lines 88-166).  Checks in source order:
loaded handler, coordinates, date parsing (`ValueError` → 400), start
before end, range at most 365 days; then the fetch, the emptiness check,
and the `predict(df, capacity=...)` call.  `except ValueError` yields a
400 `Invalid input format` response, any other exception a 500
`Prediction generation failed` response.  The success continuation zips
dates, predictions and savings into rows (display rounding not modelled —
unreachable anyway, since the keyword call always raises `TypeError`). -/
def generate_predictions (handler : Option HandlerState)
    (fetchRes : Except String DashFrame)
    (lat lon capacity : ℚ) (sd ed : Option PyDate) : HttpResponse :=
  match handler with
  | none => ⟨500, some "Model not loaded", none, none⟩
  | some hs =>
    if ¬ hs.is_loaded then ⟨500, some "Model not loaded", none, none⟩
    else if ¬ (-90 ≤ lat ∧ lat ≤ 90) ∨ ¬ (-180 ≤ lon ∧ lon ≤ 180) then
      ⟨400, some "Invalid coordinates", none, none⟩
    else
      match sd, ed with
      | some s, some e =>
        if s.toOrd ≥ e.toOrd then
          ⟨400, some "Start date must be before end date", none, none⟩
        else if e.toOrd - s.toOrd > 365 then
          ⟨400, some "Date range cannot exceed 1 year", none, none⟩
        else
          match fetchRes with
          | .error msg =>
            ⟨500, some ("Prediction generation failed: " ++ msg), none, none⟩
          | .ok df =>
            if dfEmpty df.table then
              ⟨400, some "No NASA POWER data available for this location and date range",
                none, none⟩
            else
              match PVModelHandler.predictKwCall hs df.table "capacity" with
              | .error err =>
                if err.isValueError then
                  ⟨400, some ("Invalid input format: " ++ err.msg), none, none⟩
                else
                  ⟨500, some ("Prediction generation failed: " ++ err.msg), none, none⟩
              | .ok preds =>
                let savings := calculate_financial_savings preds (6/5)
                let rows := List.zipWith (fun d pv => PredRow.mk d pv.1 pv.2)
                  df.index (List.zip preds savings)
                ⟨200, none, some rows, some preds.length⟩
      | _, _ =>
        ⟨400, some "Invalid input format: time data does not match format", none, none⟩

/-!
## Concrete fixtures used by witnesses and counterexamples
-/

/-- A stub regressor predicting the constant `q` for every row. -/
def constModel (q : ℚ) : PredFn :=
  ⟨none, fun X => .ok (List.replicate (nRows X) (.fin q))⟩

/-- The two-model fixture of the spec's blend property: `A` predicts 10,
`B` predicts 20. -/
def twoModels : List (String × PredFn) := [("A", constModel 10), ("B", constModel 20)]

/-- A two-row, one-column input frame. -/
def Xsample : PdTable := [[.fin 0, .fin 0]]

/-!
## Lemmas about the ensemble blend
-/

instance {ε α : Type} [DecidableEq ε] [DecidableEq α] : DecidableEq (Except ε α) :=
  fun x y =>
    match x, y with
    | .ok a, .ok b =>
      if h : a = b then isTrue (by rw [h]) else
        isFalse (by intro hc; cases hc; exact h rfl)
    | .error a, .error b =>
      if h : a = b then isTrue (by rw [h]) else
        isFalse (by intro hc; cases hc; exact h rfl)
    | .ok _, .error _ => isFalse (by intro hc; cases hc)
    | .error _, .ok _ => isFalse (by intro hc; cases hc)

theorem exceptBind_ok {ε α β : Type} (a : α) (f : α → Except ε β) :
    (Except.ok a >>= f) = f a := rfl

theorem exceptBind_error {ε α β : Type} (e : ε) (f : α → Except ε β) :
    ((Except.error e : Except ε α) >>= f) = Except.error e := rfl

theorem exceptMap_ok {ε α β : Type} (f : α → β) (a : α) :
    Except.map f (Except.ok a : Except ε α) = Except.ok (f a) := rfl

theorem exceptMap_error {ε α β : Type} (f : α → β) (e : ε) :
    Except.map f (Except.error e : Except ε α) = Except.error e := rfl

theorem mapM_run_ok (X : PdTable) (out : String → List FVal) :
    ∀ ms : List (String × PredFn), (∀ p ∈ ms, p.2.run X = .ok (out p.1)) →
      ms.mapM (fun p => (p.2.run X).map fun v => (p.1, v)) =
        .ok (ms.map fun p => (p.1, out p.1)) := by
  intro ms h
  induction ms with
  | nil => rfl
  | cons p rest ih =>
    rw [List.mapM_cons, h p (by simp), ih fun q hq => h q (by simp [hq])]
    rfl

theorem mapM_run_fst (X : PdTable) :
    ∀ (ms : List (String × PredFn)) (preds : List (String × List FVal)),
      ms.mapM (fun p => (p.2.run X).map fun v => (p.1, v)) = .ok preds →
      preds.map Prod.fst = ms.map Prod.fst := by
  intro ms
  induction ms with
  | nil =>
    intro preds h
    simp only [List.mapM_nil] at h
    cases h
    rfl
  | cons p rest ih =>
    intro preds h
    rw [List.mapM_cons] at h
    cases hrun : p.2.run X with
    | error e =>
      rw [hrun, show Except.map (fun v => (p.1, v)) (Except.error e : Except PyErr (List FVal)) =
        Except.error e from rfl, exceptBind_error] at h
      cases h
    | ok v =>
      rw [hrun, show Except.map (fun v => (p.1, v)) (Except.ok v : Except PyErr (List FVal)) =
        Except.ok (p.1, v) from rfl, exceptBind_ok] at h
      cases hrest : rest.mapM (fun p => (p.2.run X).map fun v => (p.1, v)) with
      | error e =>
        rw [hrest, exceptBind_error] at h
        cases h
      | ok ps =>
        rw [hrest, exceptBind_ok] at h
        cases h
        simp [ih ps hrest]

theorem blendTerms_ok (ws : List (String × FVal)) (w : String → FVal) :
    ∀ preds : List (String × List FVal),
      (∀ pr ∈ preds, ws.lookup pr.1 = some (w pr.1)) →
      EnsembleModel.blendTerms ws preds =
        .ok (preds.map fun pr => sMul (w pr.1) pr.2) := by
  intro preds h
  induction preds with
  | nil => rfl
  | cons pr rest ih =>
    simp only [EnsembleModel.blendTerms, h pr (by simp),
      ih fun q hq => h q (by simp [hq])]
    rfl

theorem blendTerms_missing (ws : List (String × FVal)) :
    ∀ preds : List (String × List FVal),
      (∃ pr ∈ preds, ws.lookup pr.1 = none) →
      ∃ name, name ∈ preds.map Prod.fst ∧ ws.lookup name = none ∧
        EnsembleModel.blendTerms ws preds = .error (.keyError name) := by
  intro preds h
  induction preds with
  | nil => simp at h
  | cons pr rest ih =>
    cases hl : ws.lookup pr.1 with
    | none => exact ⟨pr.1, by simp, hl, by simp [EnsembleModel.blendTerms, hl]⟩
    | some wv =>
      obtain ⟨q, hq, hqn⟩ := h
      rcases List.mem_cons.mp hq with rfl | hq'
      · rw [hl] at hqn; cases hqn
      · obtain ⟨name, hn1, hn2, hn3⟩ := ih ⟨q, hq', hqn⟩
        refine ⟨name, by simp [hn1], hn2, ?_⟩
        simp only [EnsembleModel.blendTerms, hl, hn3, exceptMap_error]

theorem lookup_of_not_mem_keys {β : Type} (n : String) :
    ∀ l : List (String × β), n ∉ l.map Prod.fst → l.lookup n = none := by
  intro l h
  induction l with
  | nil => rfl
  | cons e es ih =>
    simp only [List.map_cons, List.mem_cons] at h
    push_neg at h
    have hbe : (n == e.1) = false := by
      cases hbe : n == e.1 with
      | false => rfl
      | true => exact absurd (eq_of_beq hbe) h.1
    simp [List.lookup, hbe, ih h.2]

theorem lookup_append_of_not_mem {β : Type} (n : String) :
    ∀ ws extra : List (String × β), n ∉ extra.map Prod.fst →
      (ws ++ extra).lookup n = ws.lookup n := by
  intro ws extra h
  induction ws with
  | nil => simpa using lookup_of_not_mem_keys n extra h
  | cons e es ih =>
    cases hbe : n == e.1 with
    | false => simpa [List.lookup, hbe] using ih
    | true => simp [List.lookup, hbe]

theorem blendTerms_append (ws extra : List (String × FVal)) :
    ∀ preds : List (String × List FVal),
      (∀ pr ∈ preds, pr.1 ∉ extra.map Prod.fst) →
      EnsembleModel.blendTerms (ws ++ extra) preds =
        EnsembleModel.blendTerms ws preds := by
  intro preds h
  induction preds with
  | nil => rfl
  | cons pr rest ih =>
    simp only [EnsembleModel.blendTerms,
      lookup_append_of_not_mem pr.1 ws extra (h pr (by simp))]
    cases ws.lookup pr.1 with
    | none => rfl
    | some wv => rw [ih fun q hq => h q (by simp [hq])]

theorem vAdd_getD (u v : List FVal) (L i : ℕ) (hu : u.length = L)
    (hv : v.length = L) (hi : i < L) :
    (vAdd u v).getD i .nan = u.getD i .nan + v.getD i .nan := by
  have hlen : (vAdd u v).length = L := by
    simp [vAdd, List.length_zipWith, hu, hv]
  rw [List.getD_eq_getElem _ _ (by rw [hlen]; exact hi),
    List.getD_eq_getElem _ _ (by rw [hu]; exact hi),
    List.getD_eq_getElem _ _ (by rw [hv]; exact hi)]
  simp [vAdd, List.getElem_zipWith]
  rfl

theorem foldl_vAdd_spec (L : ℕ) :
    ∀ (ts : List (List FVal)) (t : List FVal), t.length = L →
      (∀ u ∈ ts, u.length = L) →
      (ts.foldl vAdd t).length = L ∧
      ∀ i, i < L → (ts.foldl vAdd t).getD i .nan =
        t.getD i .nan + (ts.map fun u => u.getD i .nan).sum := by
  intro ts
  induction ts with
  | nil =>
    intro t ht _
    exact ⟨ht, fun i _ => (FVal.add_zero' _).symm⟩
  | cons u rest ih =>
    intro t ht hall
    have hu : u.length = L := hall u (by simp)
    have hvadd : (vAdd t u).length = L := by
      simp [vAdd, List.length_zipWith, ht, hu]
    obtain ⟨ihlen, ihget⟩ := ih (vAdd t u) hvadd fun x hx => hall x (by simp [hx])
    refine ⟨by simpa using ihlen, fun i hi => ?_⟩
    have := ihget i hi
    simp only [List.foldl_cons]
    rw [this, vAdd_getD t u L i ht hu hi, List.map_cons, List.sum_cons,
      FVal.add_assoc']

theorem sMul_getD (w : FVal) (v : List FVal) (i : ℕ) (hi : i < v.length) :
    (sMul w v).getD i .nan = FVal.mul w (v.getD i .nan) := by
  rw [List.getD_eq_getElem _ _ (by simpa [sMul] using hi),
    List.getD_eq_getElem _ _ hi]
  simp [sMul]

/-- The spec's blend formula, written from the spec's words: row `i` of the
output is Σ over model names `m` of `weight[m] × model[m].predict(X)[i]`,
with no renormalization of the weights. -/
def specEnsembleBlend (ms : List (String × PredFn)) (w : String → FVal)
    (out : String → List FVal) (L : ℕ) : List FVal :=
  (List.range L).map fun i =>
    (ms.map fun p => FVal.mul (w p.1) ((out p.1).getD i .nan)).sum

theorem specEnsembleBlend_getD (ms : List (String × PredFn)) (w : String → FVal)
    (out : String → List FVal) (L i : ℕ) (hi : i < L) :
    (specEnsembleBlend ms w out L).getD i .nan =
      (ms.map fun p => FVal.mul (w p.1) ((out p.1).getD i .nan)).sum := by
  rw [List.getD_eq_getElem _ _ (by simpa [specEnsembleBlend] using hi)]
  simp [specEnsembleBlend]

/-- The stub per-model outputs on `Xsample`: what `constModel 10` and
`constModel 20` answer for its two rows. -/
def outAB : String → List FVal := fun n =>
  if n = "A" then List.replicate 2 (.fin 10) else List.replicate 2 (.fin 20)

/-- C4, universal part: whenever every base model answers with a vector of
common length `L` and every model name has a weight, `EnsembleModel.predict`
returns exactly the spec's Σ-formula vector. -/
theorem ensemble_blend_formula (ms : List (String × PredFn))
    (ws : List (String × FVal)) (X : PdTable) (out : String → List FVal)
    (w : String → FVal) (L : ℕ) (hne : ms ≠ [])
    (hruns : ∀ p ∈ ms, p.2.run X = .ok (out p.1))
    (hws : ∀ p ∈ ms, ws.lookup p.1 = some (w p.1))
    (hlen : ∀ p ∈ ms, (out p.1).length = L) :
    EnsembleModel.predictFn ms ws X = .ok (.vec (specEnsembleBlend ms w out L)) := by
  obtain ⟨p, rest, rfl⟩ : ∃ p rest, ms = p :: rest := by
    cases ms with
    | nil => exact absurd rfl hne
    | cons p rest => exact ⟨p, rest, rfl⟩
  show (List.mapM _ _ >>= _) = _
  rw [mapM_run_ok X out _ hruns, exceptBind_ok,
    blendTerms_ok ws w _ (by
      intro pr hpr
      obtain ⟨q, hq, rfl⟩ := List.mem_map.mp hpr
      exact hws q hq),
    exceptBind_ok]
  have hterms : List.map (fun pr => sMul (w pr.1) pr.2)
      (List.map (fun p => (p.1, out p.1)) (p :: rest)) =
      List.map (fun q => sMul (w q.1) (out q.1)) (p :: rest) := by
    rw [List.map_map]
    exact List.map_congr_left fun q _ => rfl
  rw [hterms, List.map_cons]
  have hhd : (sMul (w p.1) (out p.1)).length = L := by
    simp [sMul, hlen p (by simp)]
  have htl : ∀ u ∈ rest.map fun q => sMul (w q.1) (out q.1), u.length = L := by
    intro u hu
    obtain ⟨q, hq, rfl⟩ := List.mem_map.mp hu
    simp [sMul, hlen q (by simp [hq])]
  obtain ⟨hflen, hfget⟩ := foldl_vAdd_spec L _ _ hhd htl
  have hout : (List.foldl vAdd (sMul (w p.1) (out p.1))
      (rest.map fun q => sMul (w q.1) (out q.1))) = specEnsembleBlend (p :: rest) w out L := by
    apply List.ext_getElem
    · simp [hflen, specEnsembleBlend]
    · intro i hi hi2
      rw [← List.getD_eq_getElem _ FVal.nan hi, ← List.getD_eq_getElem _ FVal.nan hi2]
      rw [hflen] at hi
      rw [hfget i hi, specEnsembleBlend_getD _ _ _ _ _ hi,
        sMul_getD _ _ _ (by rw [hlen p (by simp)]; exact hi)]
      rw [List.map_map, List.map_cons, List.sum_cons]
      have hmapped : (List.map ((fun u => u.getD i FVal.nan) ∘ fun q => sMul (w q.1) (out q.1)) rest)
          = rest.map fun q => FVal.mul (w q.1) ((out q.1).getD i FVal.nan) := by
        apply List.map_congr_left
        intro q hq
        exact sMul_getD _ _ _ (by rw [hlen q (by simp [hq])]; exact hi)
      rw [hmapped]
  exact congrArg (fun v => (pure (EnsembleOut.vec v) : Except PyErr EnsembleOut)) hout

/-- C4: for every loaded weighted ensemble whose base models answer with
equal-length vectors, the raw prediction is the sum over model names `m`
of `weight[m] × model[m].predict(X)`, with no renormalization; in
particular models A (constant 10) and B (constant 20) blend to 15 per row
under weights `{A: 0.5, B: 0.5}` and to 30 per row under `{A: 1, B: 1}`. -/
theorem claim_C4 :
    (∀ (ms : List (String × PredFn)) (ws : List (String × FVal)) (X : PdTable)
      (out : String → List FVal) (w : String → FVal) (L : ℕ),
      ms ≠ [] →
      (∀ p ∈ ms, p.2.run X = .ok (out p.1)) →
      (∀ p ∈ ms, ws.lookup p.1 = some (w p.1)) →
      (∀ p ∈ ms, (out p.1).length = L) →
      EnsembleModel.predictFn ms ws X = .ok (.vec (specEnsembleBlend ms w out L))) ∧
    EnsembleModel.predictFn twoModels
      [("A", FVal.fin (1/2)), ("B", FVal.fin (1/2))] Xsample
      = .ok (.vec [.fin 15, .fin 15]) ∧
    EnsembleModel.predictFn twoModels
      [("A", FVal.fin 1), ("B", FVal.fin 1)] Xsample
      = .ok (.vec [.fin 30, .fin 30]) := by
  refine ⟨ensemble_blend_formula, ?_, ?_⟩
  · rw [ensemble_blend_formula twoModels _ Xsample outAB (fun _ => FVal.fin (1/2)) 2
      (List.cons_ne_nil _ _)
      (by intro p hp; fin_cases hp <;> rfl)
      (by intro p hp; fin_cases hp <;> rfl)
      (by intro p hp; fin_cases hp <;> rfl)]
    have : specEnsembleBlend twoModels (fun _ => FVal.fin (1/2)) outAB 2
        = [.fin 15, .fin 15] := by
      simp [specEnsembleBlend, twoModels, outAB, List.range_succ, FVal.mul,
        FVal.add_def, FVal.add, FVal.zero_def, List.getD]
      all_goals norm_num
    rw [this]
  · rw [ensemble_blend_formula twoModels _ Xsample outAB (fun _ => FVal.fin 1) 2
      (List.cons_ne_nil _ _)
      (by intro p hp; fin_cases hp <;> rfl)
      (by intro p hp; fin_cases hp <;> rfl)
      (by intro p hp; fin_cases hp <;> rfl)]
    have : specEnsembleBlend twoModels (fun _ => FVal.fin 1) outAB 2
        = [.fin 30, .fin 30] := by
      simp [specEnsembleBlend, twoModels, outAB, List.range_succ, FVal.mul,
        FVal.add_def, FVal.add, FVal.zero_def, List.getD]
      all_goals norm_num
    rw [this]

/-- Witness for C4 at the concrete two-model ensemble with unit weights. -/
theorem claim_C4_witness :
    EnsembleModel.predictFn twoModels [("A", FVal.fin 1), ("B", FVal.fin 1)] Xsample
      = .ok (.vec (specEnsembleBlend twoModels (fun _ => FVal.fin 1) outAB 2)) :=
  claim_C4.1 twoModels [("A", FVal.fin 1), ("B", FVal.fin 1)] Xsample outAB
    (fun _ => FVal.fin 1) 2 (List.cons_ne_nil _ _) (by decide) (by decide) (by decide)

/-- C9 (implicit): a weighted-ensemble predict succeeds only when every
model name also has a weight — the first model name without a weight makes
`predict` raise `KeyError` on that name — while weight entries naming no
model are silently ignored and do not change the result. -/
theorem claim_C9 :
    (∀ (ms : List (String × PredFn)) (ws : List (String × FVal)) (X : PdTable)
      (out : String → List FVal),
      (∀ p ∈ ms, p.2.run X = .ok (out p.1)) →
      (∃ p ∈ ms, ws.lookup p.1 = none) →
      ∃ name, name ∈ ms.map Prod.fst ∧ ws.lookup name = none ∧
        EnsembleModel.predictFn ms ws X = .error (.keyError name)) ∧
    (∀ (ms : List (String × PredFn)) (ws extra : List (String × FVal)) (X : PdTable),
      (∀ e ∈ extra, e.1 ∉ ms.map Prod.fst) →
      EnsembleModel.predictFn ms (ws ++ extra) X =
        EnsembleModel.predictFn ms ws X) := by
  constructor
  · intro ms ws X out hruns hmiss
    have hpreds := mapM_run_ok X out ms hruns
    obtain ⟨name, hn1, hn2, hn3⟩ := blendTerms_missing ws (ms.map fun p => (p.1, out p.1))
      (by
        obtain ⟨p, hp, hpn⟩ := hmiss
        exact ⟨(p.1, out p.1), List.mem_map.mpr ⟨p, hp, rfl⟩, hpn⟩)
    refine ⟨name, ?_, hn2, ?_⟩
    · simpa [List.map_map, Function.comp] using hn1
    · show (List.mapM _ _ >>= _) = _
      rw [hpreds, exceptBind_ok, hn3, exceptBind_error]
  · intro ms ws extra X hdisj
    cases hres : ms.mapM (fun p => (p.2.run X).map fun v => (p.1, v)) with
    | error e =>
      show (List.mapM _ _ >>= _) = (List.mapM _ _ >>= _)
      rw [hres, exceptBind_error, exceptBind_error]
    | ok preds =>
      have hfst := mapM_run_fst X ms preds hres
      show (List.mapM _ _ >>= _) = (List.mapM _ _ >>= _)
      rw [hres, exceptBind_ok, exceptBind_ok,
        blendTerms_append ws extra preds (by
          intro pr hpr hmem
          have : pr.1 ∈ ms.map Prod.fst := by
            rw [← hfst]
            exact List.mem_map.mpr ⟨pr, hpr, rfl⟩
          obtain ⟨e, he, heq⟩ := List.mem_map.mp hmem
          obtain ⟨e2, he2, heq2⟩ := List.mem_map.mp hmem
          exact hdisj e he (by rw [heq]; exact this))]

/-- Witness for C9: in the two-model fixture, dropping B's weight makes
predict fail with `KeyError`, and appending an unrelated weight entry C
does not change the blend. -/
theorem claim_C9_witness :
    (∃ name, name ∈ twoModels.map Prod.fst ∧
      (([("A", FVal.fin 1)] : List (String × FVal)).lookup name = none) ∧
      EnsembleModel.predictFn twoModels [("A", FVal.fin 1)] Xsample
        = .error (.keyError name)) ∧
    EnsembleModel.predictFn twoModels
      ([("A", FVal.fin 1), ("B", FVal.fin 1)] ++ [("C", FVal.fin 7)]) Xsample
      = EnsembleModel.predictFn twoModels [("A", FVal.fin 1), ("B", FVal.fin 1)] Xsample :=
  ⟨claim_C9.1 twoModels [("A", FVal.fin 1)] Xsample outAB (by decide) (by decide),
   claim_C9.2 twoModels [("A", FVal.fin 1), ("B", FVal.fin 1)] [("C", FVal.fin 7)]
     Xsample (by decide)⟩


/-!
## Lemmas about the retry loop of `fetch_data`
-/

namespace NASAPowerGEOSITClient

theorem fetchGo_skip (tr : ℕ → TransportOutcome) (delay : ℚ) (maxR : ℕ) :
    ∀ (j r attempt : ℕ) (acc : List ℚ), j ≤ r → attempt + j ≤ maxR - 1 →
      (∀ i, i < j → ∃ e, tr (attempt + i) = .reqExc e) →
      fetchGo tr delay maxR r attempt acc =
        fetchGo tr delay maxR (r - j) (attempt + j)
          (acc ++ (List.range j).map fun i => delay * 2 ^ (attempt + i)) := by
  intro j
  induction j with
  | zero => intro r attempt acc _ _ _; simp
  | succ j ih =>
    intro r attempt acc hjr hbound hfail
    obtain ⟨r', rfl⟩ : ∃ r', r = r' + 1 := ⟨r - 1, by omega⟩
    obtain ⟨e, he⟩ := hfail 0 (by omega)
    rw [Nat.add_zero] at he
    have hlt : attempt < maxR - 1 := by omega
    have hstep : fetchGo tr delay maxR (r' + 1) attempt acc =
        fetchGo tr delay maxR r' (attempt + 1) (acc ++ [delay * 2 ^ attempt]) := by
      simp only [fetchGo, he, if_pos hlt]
    rw [hstep, ih r' (attempt + 1) (acc ++ [delay * 2 ^ attempt]) (by omega) (by omega)
      (fun i hi => by
        obtain ⟨e2, he2⟩ := hfail (i + 1) (by omega)
        exact ⟨e2, by rw [show attempt + 1 + i = attempt + (i + 1) from by omega]; exact he2⟩)]
    have harith : r' - j = r' + 1 - (j + 1) := by omega
    have hlist : (acc ++ [delay * 2 ^ attempt]) ++
        (List.range j).map (fun i => delay * 2 ^ (attempt + 1 + i)) =
        acc ++ (List.range (j + 1)).map fun i => delay * 2 ^ (attempt + i) := by
      rw [List.append_assoc]
      congr 1
      rw [List.range_succ_eq_map, List.map_cons, List.map_map, List.singleton_append]
      congr 1
      apply List.map_congr_left
      intro i _
      show delay * 2 ^ (attempt + 1 + i) = delay * 2 ^ (attempt + (i + 1))
      rw [show attempt + 1 + i = attempt + (i + 1) from by omega]
    rw [harith, hlist, show attempt + 1 + j = attempt + (j + 1) from by omega]

end NASAPowerGEOSITClient

/-- The NASA response fixture used by the C5 witness. -/
def plainResp : NASAPowerGEOSITClient.NasaResp := ⟨[], 7⟩

/-- A transport failing only on its first attempt. -/
def trOnce : ℕ → NASAPowerGEOSITClient.TransportOutcome := fun i =>
  if i = 0 then .reqExc "timeout" else .success plainResp

/-- A transport failing on every attempt. -/
def trAlways : ℕ → NASAPowerGEOSITClient.TransportOutcome := fun _ =>
  .reqExc "connection timeout"

/-- C5: a transport failing exactly `k < max_retries` times then answering
a clean response makes `fetch_data` return that response after exactly
`k + 1` attempts, sleeping `retry_delay * 2 ^ attempt` between attempts;
a transport failing always makes `fetch_data` raise the final
`Failed to fetch ... after max_retries attempts` error carrying the last
underlying error message, after exactly `max_retries` attempts. -/
theorem claim_C5 :
    (∀ (tr : ℕ → NASAPowerGEOSITClient.TransportOutcome) (maxR k : ℕ) (delay : ℚ)
      (d : NASAPowerGEOSITClient.NasaResp) (err : ℕ → String),
      k < maxR →
      (∀ i, i < k → tr i = .reqExc (err i)) →
      tr k = .success d →
      NASAPowerGEOSITClient.hasApiError d = false →
      NASAPowerGEOSITClient.fetch_data tr maxR delay =
        ⟨.ok d, k + 1, (List.range k).map fun i => delay * 2 ^ i⟩) ∧
    (∀ (tr : ℕ → NASAPowerGEOSITClient.TransportOutcome) (maxR : ℕ) (delay : ℚ)
      (err : ℕ → String),
      1 ≤ maxR →
      (∀ i, tr i = .reqExc (err i)) →
      NASAPowerGEOSITClient.fetch_data tr maxR delay =
        ⟨.unavailable ("Failed to fetch GEOS-IT data after " ++ toString maxR ++
          " attempts: " ++ err (maxR - 1)), maxR,
          (List.range (maxR - 1)).map fun i => delay * 2 ^ i⟩) := by
  constructor
  · intro tr maxR k delay d err hk hfail hsucc hapi
    unfold NASAPowerGEOSITClient.fetch_data
    rw [NASAPowerGEOSITClient.fetchGo_skip tr delay maxR k maxR 0 []
      (le_of_lt hk) (by omega)
      (fun i hi => ⟨err i, by simpa using hfail i hi⟩)]
    obtain ⟨r, hr⟩ : ∃ r, maxR - k = r + 1 := ⟨maxR - k - 1, by omega⟩
    rw [hr]
    simp only [NASAPowerGEOSITClient.fetchGo, Nat.zero_add, List.nil_append, hsucc, hapi,
      Bool.false_eq_true, if_false]
  · intro tr maxR delay err hmax hfail
    unfold NASAPowerGEOSITClient.fetch_data
    rw [NASAPowerGEOSITClient.fetchGo_skip tr delay maxR (maxR - 1) maxR 0 []
      (by omega) (by omega)
      (fun i _ => ⟨err i, by simpa using hfail i⟩)]
    rw [show maxR - (maxR - 1) = 1 from by omega]
    simp only [NASAPowerGEOSITClient.fetchGo, Nat.zero_add, List.nil_append,
      hfail (maxR - 1)]
    rw [if_neg (by omega)]
    rw [show maxR - 1 + 1 = maxR from by omega]

/-- Witness for C5: one failure then success with `max_retries = 3` yields
the response after 2 attempts and one backoff sleep; a permanently failing
transport exhausts 3 attempts and raises with the last error. -/
theorem claim_C5_witness :
    NASAPowerGEOSITClient.fetch_data trOnce 3 1 =
      ⟨.ok plainResp, 2, (List.range 1).map fun i => (1 : ℚ) * 2 ^ i⟩ ∧
    NASAPowerGEOSITClient.fetch_data trAlways 3 1 =
      ⟨.unavailable ("Failed to fetch GEOS-IT data after " ++ toString 3 ++
        " attempts: " ++ "connection timeout"), 3,
        (List.range 2).map fun i => (1 : ℚ) * 2 ^ i⟩ :=
  ⟨claim_C5.1 trOnce 3 1 1 plainResp (fun _ => "timeout") (by omega)
      (fun i hi => by interval_cases i; rfl) rfl rfl,
   claim_C5.2 trAlways 3 1 (fun _ => "connection timeout") (by omega) (fun _ => rfl)⟩

/-- C6: `reload_model` (which just runs `load_model`) either succeeds — in
which case the newly dispatched artifact is the active model and
`is_loaded` is true, atomically replacing whatever was loaded before — or
fails, in which case the handler is left unloaded (`model = None`,
`is_loaded = False`) no matter what artifact was active before: the old
artifact is discarded, not rolled back. -/
theorem claim_C6 (h : HandlerState) (content : Option PickleObj) :
    ((PVModelHandler.reload_model h content).2 = .ok () →
      ∃ obj m, content = some obj ∧ dispatchLoad obj = .ok m ∧
        (PVModelHandler.reload_model h content).1.model = some m ∧
        (PVModelHandler.reload_model h content).1.is_loaded = true) ∧
    (∀ e, (PVModelHandler.reload_model h content).2 = .error e →
      (PVModelHandler.reload_model h content).1.model = none ∧
      (PVModelHandler.reload_model h content).1.is_loaded = false) := by
  cases content with
  | none =>
    refine ⟨fun hok => ?_, fun e _ => ⟨rfl, rfl⟩⟩
    simp [PVModelHandler.reload_model, PVModelHandler.load_model] at hok
  | some obj =>
    cases hdis : dispatchLoad obj with
    | error e =>
      refine ⟨fun hok => ?_, fun e2 _ => ?_⟩
      · simp [PVModelHandler.reload_model, PVModelHandler.load_model, hdis] at hok
      · constructor <;>
          simp [PVModelHandler.reload_model, PVModelHandler.load_model, hdis]
    | ok m =>
      cases hfc : m.featureCount with
      | error e =>
        refine ⟨fun hok => ?_, fun e2 _ => ?_⟩
        · simp [PVModelHandler.reload_model, PVModelHandler.load_model, hdis, hfc] at hok
        · constructor <;>
            simp [PVModelHandler.reload_model, PVModelHandler.load_model, hdis, hfc]
      | ok fc =>
        refine ⟨fun _ => ⟨obj, m, rfl, hdis, ?_, ?_⟩, fun e2 herr => ?_⟩
        · simp [PVModelHandler.reload_model, PVModelHandler.load_model, hdis, hfc]
        · simp [PVModelHandler.reload_model, PVModelHandler.load_model, hdis, hfc]
        · simp [PVModelHandler.reload_model, PVModelHandler.load_model, hdis, hfc] at herr

/-- A handler that currently holds a working artifact. -/
def hLoaded : HandlerState := ⟨"final_pv_model.pkl", some (.direct (constModel 1)), true, none⟩

/-- Witness for C6: reloading `hLoaded` from a direct-model pickle swaps in
the new artifact; reloading it from a missing file leaves it unloaded, the
old artifact discarded. -/
theorem claim_C6_witness :
    (∃ obj m, (some (PickleObj.withPredict (constModel 2)) : Option PickleObj) = some obj ∧
      dispatchLoad obj = .ok m ∧
      (PVModelHandler.reload_model hLoaded (some (.withPredict (constModel 2)))).1.model
        = some m ∧
      (PVModelHandler.reload_model hLoaded (some (.withPredict (constModel 2)))).1.is_loaded
        = true) ∧
    ((PVModelHandler.reload_model hLoaded none).1.model = none ∧
      (PVModelHandler.reload_model hLoaded none).1.is_loaded = false) :=
  ⟨(claim_C6 hLoaded (some (.withPredict (constModel 2)))).1 rfl,
   (claim_C6 hLoaded none).2 (.fileNotFound "Model file not found: final_pv_model.pkl") rfl⟩

/-- C8: `validate_dates` raises `ValueError` when either input fails to
parse in the fixed 8-digit format, when start > end, or when start
precedes the provider minimum 2020-01-01; when the parsed range is
otherwise valid but the end date lies beyond the currently available max
date (`now - 3 days`) or within the reporting-delay window
(`(now - end).days < 3`), it emits a warning but succeeds. -/
theorem claim_C8 (nowOrd : ℤ) (frac : ℚ) (s e : PyDate) :
    ((s.toOrd > e.toOrd ∨ s.toOrd < NASAPowerGEOSITClient.minDateOrd) →
      ∃ m, NASAPowerGEOSITClient.validate_dates nowOrd frac (some s) (some e)
        = .fail m) ∧
    (∀ sd ed : Option PyDate, sd = none ∨ ed = none →
      ∃ m, NASAPowerGEOSITClient.validate_dates nowOrd frac sd ed = .fail m) ∧
    (s.toOrd ≤ e.toOrd → NASAPowerGEOSITClient.minDateOrd ≤ s.toOrd →
      (((e.toOrd : ℚ) > (nowOrd : ℚ) + frac - 3) ∨
        ⌊(nowOrd : ℚ) + frac - (e.toOrd : ℚ)⌋ < 3) →
      ∃ ws, NASAPowerGEOSITClient.validate_dates nowOrd frac (some s) (some e)
        = .okWith ws ∧ ws ≠ []) := by
  refine ⟨?_, ?_, ?_⟩
  · intro hd
    by_cases h1 : s.toOrd > e.toOrd
    · exact ⟨"Start date must be before end date",
        by simp [NASAPowerGEOSITClient.validate_dates, if_pos h1]⟩
    · rcases hd with h | h
      · exact absurd h h1
      · exact ⟨"GEOS-IT data starts from 2020-01-01. Provided start date is earlier.",
          by simp [NASAPowerGEOSITClient.validate_dates, if_neg h1, if_pos h]⟩
  · intro sd ed h
    rcases h with rfl | rfl
    · cases ed <;> exact ⟨"Dates must be in YYYYMMDD format", rfl⟩
    · cases sd <;> exact ⟨"Dates must be in YYYYMMDD format", rfl⟩
  · intro hse hmin hwarn
    have hng : ¬ (s.toOrd > e.toOrd) := by omega
    have hnm : ¬ (s.toOrd < NASAPowerGEOSITClient.minDateOrd) := by omega
    refine ⟨(if ((e.toOrd : ℚ) > (nowOrd : ℚ) + frac - 3) then
        ["GEOS-IT data may not be available after the max date."] else []) ++
      (if (⌊(nowOrd : ℚ) + frac - (e.toOrd : ℚ)⌋ < 3) then
        ["Requesting recent data. GEOS-IT typically has a 3-4 day delay."] else []),
      ?_, ?_⟩
    · simp only [NASAPowerGEOSITClient.validate_dates, if_neg hng, if_neg hnm]
    · rcases hwarn with h | h
      · simp [if_pos h]
      · by_cases h2 : ((e.toOrd : ℚ) > (nowOrd : ℚ) + frac - 3)
        · simp [if_pos h2]
        · rw [if_neg h2, if_pos h, List.nil_append]
          exact List.cons_ne_nil _ _

/-- Witness for C8 at concrete dates: 2023-06-03 → 2023-06-01 fails
(start after end), a missing parse fails, and an end date inside the
3-day delay window of `now = day 19511 + 1/2` warns but succeeds. -/
theorem claim_C8_witness :
    (∃ m, NASAPowerGEOSITClient.validate_dates 19511 (1/2)
      (some ⟨2023, 6, 3⟩) (some ⟨2023, 6, 1⟩) = .fail m) ∧
    (∃ m, NASAPowerGEOSITClient.validate_dates 19511 (1/2)
      none (some ⟨2023, 6, 1⟩) = .fail m) ∧
    (∃ ws, NASAPowerGEOSITClient.validate_dates 19511 (1/2)
      (some ⟨2023, 6, 1⟩) (some ⟨2023, 6, 3⟩) = .okWith ws ∧ ws ≠ []) :=
  ⟨(claim_C8 19511 (1/2) ⟨2023, 6, 3⟩ ⟨2023, 6, 1⟩).1 (Or.inl (by decide)),
   (claim_C8 19511 (1/2) ⟨2023, 6, 3⟩ ⟨2023, 6, 1⟩).2.1 none (some ⟨2023, 6, 1⟩)
     (Or.inl rfl),
   (claim_C8 19511 (1/2) ⟨2023, 6, 1⟩ ⟨2023, 6, 3⟩).2.2 (by decide) (by decide)
     (Or.inr (by norm_num [PyDate.toOrd]))⟩

/-- C10 (implicit): with a loaded handler and valid coordinates, the
predictions endpoint rejects start ≥ end and ranges longer than 365 days
with a 400 validation error, before any fetch or model call (the response
is the same for every fetch result and every model); the client-level
`validate_dates` is laxer — it accepts start = end and imposes no
range-length limit. -/
theorem claim_C10 (hs : HandlerState) (fetchRes : Except String DashFrame)
    (lat lon capacity : ℚ) (s e : PyDate) (nowOrd : ℤ) (frac : ℚ)
    (hloaded : hs.is_loaded = true)
    (hlat : -90 ≤ lat ∧ lat ≤ 90) (hlon : -180 ≤ lon ∧ lon ≤ 180) :
    (s.toOrd ≥ e.toOrd →
      generate_predictions (some hs) fetchRes lat lon capacity (some s) (some e)
        = ⟨400, some "Start date must be before end date", none, none⟩) ∧
    (s.toOrd < e.toOrd → e.toOrd - s.toOrd > 365 →
      generate_predictions (some hs) fetchRes lat lon capacity (some s) (some e)
        = ⟨400, some "Date range cannot exceed 1 year", none, none⟩) ∧
    (s.toOrd ≤ e.toOrd → NASAPowerGEOSITClient.minDateOrd ≤ s.toOrd →
      ∃ ws, NASAPowerGEOSITClient.validate_dates nowOrd frac (some s) (some e)
        = .okWith ws) := by
  have hcoord : ¬ (¬ (-90 ≤ lat ∧ lat ≤ 90) ∨ ¬ (-180 ≤ lon ∧ lon ≤ 180)) := by
    rintro (h | h)
    · exact h hlat
    · exact h hlon
  refine ⟨?_, ?_, ?_⟩
  · intro hge
    simp only [generate_predictions]
    rw [if_neg (by simp [hloaded]), if_neg hcoord, if_pos hge]
  · intro hlt hspan
    have hnge : ¬ (s.toOrd ≥ e.toOrd) := by omega
    simp only [generate_predictions]
    rw [if_neg (by simp [hloaded]), if_neg hcoord, if_neg hnge, if_pos hspan]
  · intro hse hmin
    have hng : ¬ (s.toOrd > e.toOrd) := by omega
    have hnm : ¬ (s.toOrd < NASAPowerGEOSITClient.minDateOrd) := by omega
    exact ⟨(if ((e.toOrd : ℚ) > (nowOrd : ℚ) + frac - 3) then
        ["GEOS-IT data may not be available after the max date."] else []) ++
      (if (⌊(nowOrd : ℚ) + frac - (e.toOrd : ℚ)⌋ < 3) then
        ["Requesting recent data. GEOS-IT typically has a 3-4 day delay."] else []),
      by simp only [NASAPowerGEOSITClient.validate_dates, if_neg hng, if_neg hnm]⟩

/-- Witness for C10: with the loaded fixture handler, a request with
start 2023-06-03 and end 2023-06-01 is rejected 400 for every fetch
result, while the client-level validation accepts start = end. -/
theorem claim_C10_witness :
    generate_predictions (some hLoaded) (.error "unreached") 0 0 1
      (some ⟨2023, 6, 3⟩) (some ⟨2023, 6, 1⟩)
      = ⟨400, some "Start date must be before end date", none, none⟩ ∧
    (∃ ws, NASAPowerGEOSITClient.validate_dates 19600 0
      (some ⟨2023, 6, 1⟩) (some ⟨2023, 6, 1⟩) = .okWith ws) :=
  ⟨(claim_C10 hLoaded (.error "unreached") 0 0 1 ⟨2023, 6, 3⟩ ⟨2023, 6, 1⟩ 19600 0
      rfl (by norm_num) (by norm_num)).1 (by decide),
   (claim_C10 hLoaded (.error "unreached") 0 0 1 ⟨2023, 6, 1⟩ ⟨2023, 6, 1⟩ 19600 0
      rfl (by norm_num) (by norm_num)).2.2 (by decide) (by decide)⟩

/-- The handler of the end-to-end scenario: a loaded stub model returning
5.0 per row. -/
def stubHandler : HandlerState :=
  ⟨"final_pv_model.pkl", some (.direct (constModel 5)), true, none⟩

/-- The frame the NASA client returns for 2023-06-01 → 2023-06-03: three
rows, dates ascending, two numeric feature columns. -/
def junDf : DashFrame :=
  ⟨[⟨2023, 6, 1⟩, ⟨2023, 6, 2⟩, ⟨2023, 6, 3⟩],
   [[.fin 1, .fin 2, .fin 3], [.fin 4, .fin 5, .fin 6]]⟩

/-- C1: evaluating the `/api/predictions` endpoint on the end-to-end
scenario — location (33.5731, -7.5898), dates 2023-06-01 → 2023-06-03,
capacity 2.0, a loaded stub model returning 5.0 per row, the NASA fetch
succeeding with 3 rows.  The endpoint does NOT return 3 prediction rows:
the call `model_handler.predict(df, capacity=capacity)` at app.py line 121
passes a keyword argument that `PVModelHandler.predict(self, df)` does not
accept, so Python raises `TypeError`, which the endpoint's generic handler
converts into a 500 `Prediction generation failed` response. -/
theorem claim_C1 :
    generate_predictions (some stubHandler) (.ok junDf)
      (335731/10000) (-75898/10000) 2 (some ⟨2023, 6, 1⟩) (some ⟨2023, 6, 3⟩)
      = ⟨500, some ("Prediction generation failed: " ++
          "predict() got an unexpected keyword argument capacity"), none, none⟩ := by
  simp only [generate_predictions]
  rw [if_neg (by simp [stubHandler]),
    if_neg (by
      rintro (h | h)
      · exact h ⟨by norm_num, by norm_num⟩
      · exact h ⟨by norm_num, by norm_num⟩),
    if_neg (by decide), if_neg (by decide)]
  rfl

/-- A stub regressor predicting `+inf` for every row. -/
def infModel : PredFn := ⟨none, fun X => .ok (List.replicate (nRows X) .pinf)⟩

/-- A stub regressor predicting NaN for every row. -/
def nanModel : PredFn := ⟨none, fun X => .ok (List.replicate (nRows X) .nan)⟩

/-- A loaded handler whose model answers `+inf` on the probe. -/
def hInf : HandlerState := ⟨"final_pv_model.pkl", some (.direct infModel), true, none⟩

/-- A loaded handler whose model answers NaN on the probe. -/
def hNaN : HandlerState := ⟨"final_pv_model.pkl", some (.direct nanModel), true, none⟩

/-- An unloaded handler. -/
def hUnloaded : HandlerState := ⟨"final_pv_model.pkl", none, false, none⟩

/-- Counterexample to C3 as stated: the health check tests only
`np.isnan`, so a predictor whose single probe result is `+inf` — a
non-finite value — is reported `healthy = true`, not `healthy = false`. -/
theorem claim_C3_counterexample :
    PVModelHandler.predict hInf (PVModelHandler.testData hInf.feature_count)
      = .ok [FVal.pinf] ∧
    FVal.isInf FVal.pinf = true ∧
    PVModelHandler.validate_model_health hInf
      = ⟨true, some FVal.pinf, "Model validation successful"⟩ :=
  ⟨rfl, rfl, rfl⟩

/-- C3 as amended: a single non-NaN probe result (finite or infinite)
yields `healthy = true` carrying that result; an exception, a NaN result,
or a result count other than one yields `healthy = false` with a non-empty
message, as does an unloaded handler; the operation is total (never
raises) by construction. -/
theorem claim_C3 (h : HandlerState) :
    (h.is_loaded = false →
      PVModelHandler.validate_model_health h = ⟨false, none, "Model not loaded"⟩) ∧
    (∀ m, h.is_loaded = true → h.model = some m →
      (∀ x, PVModelHandler.predict h (PVModelHandler.testData h.feature_count) = .ok [x] →
        x.isNaN = false →
        PVModelHandler.validate_model_health h
          = ⟨true, some x, "Model validation successful"⟩) ∧
      (∀ x, PVModelHandler.predict h (PVModelHandler.testData h.feature_count) = .ok [x] →
        x.isNaN = true →
        PVModelHandler.validate_model_health h
          = ⟨false, none, "Invalid test prediction"⟩) ∧
      (∀ v, PVModelHandler.predict h (PVModelHandler.testData h.feature_count) = .ok v →
        v.length ≠ 1 →
        PVModelHandler.validate_model_health h
          = ⟨false, none, "Invalid test prediction"⟩) ∧
      (∀ e, PVModelHandler.predict h (PVModelHandler.testData h.feature_count) = .error e →
        PVModelHandler.validate_model_health h
          = ⟨false, none, "Model validation failed: " ++ e.msg⟩)) ∧
    ("Model not loaded" ≠ "" ∧ "Invalid test prediction" ≠ "" ∧
      ∀ e : PyErr, ("Model validation failed: " ++ e.msg) ≠ "") := by
  refine ⟨?_, ?_, by decide, by decide, ?_⟩
  · intro hnl
    simp [PVModelHandler.validate_model_health, hnl]
  · intro m hl hm
    refine ⟨?_, ?_, ?_, ?_⟩
    · intro x hpred hnan
      simp [PVModelHandler.validate_model_health, hl, hm, hpred, hnan]
    · intro x hpred hnan
      simp [PVModelHandler.validate_model_health, hl, hm, hpred, hnan]
    · intro v hpred hlen
      match v, hlen with
      | [], _ =>
        simp [PVModelHandler.validate_model_health, hl, hm, hpred]
      | x :: y :: t, _ =>
        simp [PVModelHandler.validate_model_health, hl, hm, hpred]
      | [x], hlen => exact absurd rfl hlen
    · intro e hpred
      simp [PVModelHandler.validate_model_health, hl, hm, hpred]
  · intro e hc
    have hlen := congrArg String.length hc
    rw [String.length_append] at hlen
    rw [show ("Model validation failed: ").length = 25 from rfl] at hlen
    rw [show ("" : String).length = 0 from rfl] at hlen
    omega

/-- Witness for C3: the NaN-probe handler is reported unhealthy with the
fixed non-empty message, and an unloaded handler is reported unhealthy. -/
theorem claim_C3_witness :
    PVModelHandler.validate_model_health hNaN
      = ⟨false, none, "Invalid test prediction"⟩ ∧
    PVModelHandler.validate_model_health hUnloaded
      = ⟨false, none, "Model not loaded"⟩ :=
  ⟨((claim_C3 hNaN).2.1 (.direct nanModel) rfl rfl).2.1 FVal.nan rfl rfl,
   (claim_C3 hUnloaded).1 rfl⟩

/-- Counterexample to C7 as stated: `np.maximum` propagates NaN, so a
model output of NaN survives the clamp and the final prediction vector
contains a value that is not non-negative. -/
theorem claim_C7_counterexample :
    PVModelHandler.predict hNaN [[FVal.fin 1]] = .ok [FVal.nan] ∧
    FVal.nonneg FVal.nan = false :=
  ⟨rfl, rfl⟩

/-- C7 as amended: every non-NaN value of a successful `predict` output is
non-negative, and any finite negative raw model value is clamped to
exactly `0` (NaN raw values propagate as NaN instead of being clamped). -/
theorem claim_C7 (h : HandlerState) (df : PdTable) (v : List FVal)
    (hok : PVModelHandler.predict h df = .ok v) :
    (∀ x ∈ v, x.isNaN = false → x.nonneg = true) ∧
    (∀ m raw, h.model = some m →
      m.predictObj (PVModelHandler.preprocess_data df) = .ok (.vec raw) →
      v = raw.map FVal.maxZero ∧
      ∀ i q, i < raw.length → raw.getD i .nan = .fin q → q < 0 →
        v.getD i .nan = .fin 0) := by
  cases hl : h.is_loaded with
  | false =>
    simp only [PVModelHandler.predict, hl] at hok
    simp at hok
  | true =>
    cases hm : h.model with
    | none =>
      simp only [PVModelHandler.predict, hl, hm] at hok
      simp at hok
    | some m =>
      cases hde : dfEmpty df with
      | true =>
        simp only [PVModelHandler.predict, hl, hm, hde] at hok
        simp at hok
      | false =>
        cases hpo : m.predictObj (PVModelHandler.preprocess_data df) with
        | error e =>
          simp only [PVModelHandler.predict, hl, hm, hde, hpo] at hok
          simp at hok
        | ok out =>
          cases out with
          | scalarZero =>
            simp only [PVModelHandler.predict, hl, hm, hde, hpo] at hok
            simp at hok
          | vec raw0 =>
            by_cases hlm : (raw0.map FVal.maxZero).length ≠ nRows df
            · simp only [PVModelHandler.predict, hl, hm, hde, hpo, if_pos hlm] at hok
              simp at hok
            · simp only [PVModelHandler.predict, hl, hm, hde, hpo, if_neg hlm] at hok
              have hv : v = raw0.map FVal.maxZero := by
                cases hok
                rfl
              subst hv
              constructor
              · intro x hx hxn
                obtain ⟨y, _, rfl⟩ := List.mem_map.mp hx
                cases y with
                | nan => simp [FVal.maxZero, FVal.isNaN] at hxn
                | pinf => rfl
                | ninf => simp [FVal.maxZero, FVal.nonneg]
                | fin q => simp [FVal.maxZero, FVal.nonneg, le_max_right]
              · intro m2 raw hm2 hraw
                cases hm2
                rw [hpo] at hraw
                cases hraw
                refine ⟨rfl, ?_⟩
                intro i q hi hq hneg
                rw [List.getD_eq_getElem _ _ (by simpa using hi), List.getElem_map,
                  ← List.getD_eq_getElem _ FVal.nan hi, hq]
                simp [FVal.maxZero, max_eq_right (le_of_lt hneg)]

/-- Witness for C7 at a clamping model: outputs `[-3, 2]` become `[0, 2]`,
all non-NaN and non-negative. -/
def negModel : PredFn := ⟨none, fun _ => .ok [.fin (-3), .fin 2]⟩

/-- The loaded handler around `negModel`. -/
def hNeg : HandlerState := ⟨"final_pv_model.pkl", some (.direct negModel), true, none⟩

/-- Witness for C7: the handler around `negModel` on a two-row frame
clamps `-3` to `0`, leaving every output non-negative. -/
theorem claim_C7_witness :
    (∀ x ∈ [FVal.fin (max (-3) 0), FVal.fin (max 2 0)],
      x.isNaN = false → x.nonneg = true) ∧
    ([FVal.fin (max (-3) 0), FVal.fin (max 2 0)] : List FVal).getD 0 FVal.nan
      = FVal.fin 0 :=
  ⟨(claim_C7 hNeg [[FVal.fin 1, FVal.fin 2]] _ rfl).1,
   ((claim_C7 hNeg [[FVal.fin 1, FVal.fin 2]] _ rfl).2 (.direct negModel)
      [FVal.fin (-3), FVal.fin 2] rfl rfl).2 0 (-3) (by norm_num) rfl (by norm_num)⟩

/-!
## Lemmas about `preprocess_data`

`colPass1` is what the first `fillna` pass does to one column and
`colPass2` what the conditional second pass (inf → NaN, then `fillna`)
does; `preprocess_data` is their composition columnwise, guarded by the
table-wide infinity check.
-/

namespace Pandas

/-- One column through the first mean-fill pass. -/
def colPass1 (c : PdColumn) : PdColumn := fillnaCol c (colMean c)

/-- One column through the second pass (inf-to-NaN, then mean-fill). -/
def colPass2 (c : PdColumn) : PdColumn :=
  fillnaCol (replaceInfCol c) (colMean (replaceInfCol c))

theorem preprocess_eq (t : PdTable) :
    PVModelHandler.preprocess_data t =
      if anyInf (t.map colPass1) then t.map (fun c => colPass2 (colPass1 c))
      else t.map colPass1 := by
  show (if anyInf (fillnaMean t) then fillnaMean ((fillnaMean t).map replaceInfCol)
    else fillnaMean t) = _
  have h1 : fillnaMean t = t.map colPass1 := rfl
  rw [h1]
  by_cases hg : anyInf (t.map colPass1)
  · rw [if_pos hg, if_pos hg]
    show ((t.map colPass1).map replaceInfCol).map (fun c => fillnaCol c (colMean c)) = _
    rw [List.map_map, List.map_map]
    rfl
  · rw [if_neg hg, if_neg hg]

theorem colPass1_length (c : PdColumn) : (colPass1 c).length = c.length := by
  simp [colPass1, fillnaCol]

theorem colPass2_length (c : PdColumn) : (colPass2 c).length = c.length := by
  simp [colPass2, fillnaCol, replaceInfCol]

theorem pinf_mem_of_hasP (c : PdColumn) (h : hasP c = true) : FVal.pinf ∈ c := by
  unfold hasP at h
  rw [List.any_eq_true] at h
  obtain ⟨x, hx, hx2⟩ := h
  have hxe : x = FVal.pinf := by simpa using hx2
  rwa [hxe] at hx

theorem ninf_mem_of_hasN (c : PdColumn) (h : hasN c = true) : FVal.ninf ∈ c := by
  unfold hasN at h
  rw [List.any_eq_true] at h
  obtain ⟨x, hx, hx2⟩ := h
  have hxe : x = FVal.ninf := by simpa using hx2
  rwa [hxe] at hx

theorem ne_pinf_of_hasP_false (c : PdColumn) (h : hasP c = false) :
    ∀ y ∈ c, y ≠ FVal.pinf := by
  intro y hy hc
  subst hc
  have : hasP c = true := by
    unfold hasP
    rw [List.any_eq_true]
    exact ⟨FVal.pinf, hy, by simp⟩
  rw [h] at this
  cases this

theorem ne_ninf_of_hasN_false (c : PdColumn) (h : hasN c = false) :
    ∀ y ∈ c, y ≠ FVal.ninf := by
  intro y hy hc
  subst hc
  have : hasN c = true := by
    unfold hasN
    rw [List.any_eq_true]
    exact ⟨FVal.ninf, hy, by simp⟩
  rw [h] at this
  cases this

theorem anyInf_of_mem (t : PdTable) (c : PdColumn) (x : FVal) (hc : c ∈ t)
    (hx : x ∈ c) (hinf : x.isInf = true) : anyInf t = true := by
  unfold anyInf
  rw [List.any_eq_true]
  refine ⟨c, hc, ?_⟩
  rw [List.any_eq_true]
  exact ⟨x, hx, hinf⟩

theorem fillnaCol_nanFill (c : PdColumn) : fillnaCol c FVal.nan = c := by
  unfold fillnaCol
  calc c.map (fun x => if x.isNaN then (if FVal.nan.isNaN then x else FVal.nan) else x)
      = c.map id := List.map_congr_left fun x _ => by cases x <;> simp [FVal.isNaN]
    _ = c := List.map_id c

theorem fillnaCol_no_nan (c : PdColumn) (v : FVal) (h : ∀ x ∈ c, x.isNaN = false) :
    fillnaCol c v = c := by
  unfold fillnaCol
  calc c.map (fun x => if x.isNaN then (if v.isNaN then x else v) else x)
      = c.map id := List.map_congr_left fun x hx => by simp [h x hx]
    _ = c := List.map_id c

theorem replaceInfCol_no_inf (c : PdColumn) (h : ∀ x ∈ c, x.isInf = false) :
    replaceInfCol c = c := by
  unfold replaceInfCol
  calc c.map (fun x => if x.isInf then FVal.nan else x)
      = c.map id := List.map_congr_left fun x hx => by simp [h x hx]
    _ = c := List.map_id c

theorem colMean_noInf (c : PdColumn) (hp : hasP c = false) (hn : hasN c = false)
    (hfin : (finVals c).length ≠ 0) : colMean c = .fin (finMean c) := by
  simp [colMean, hp, hn, hfin]

theorem colPass1_noInf (c : PdColumn) (hp : hasP c = false) (hn : hasN c = false)
    (hfin : (finVals c).length ≠ 0) :
    colPass1 c = c.map fun x => if x.isNaN then .fin (finMean c) else x := by
  unfold colPass1 fillnaCol
  rw [colMean_noInf c hp hn hfin]
  exact List.map_congr_left fun x _ => by cases x <;> simp [FVal.isNaN]

theorem colPass1_noInf_cells (c : PdColumn) (hp : hasP c = false) (hn : hasN c = false)
    (hfin : (finVals c).length ≠ 0) :
    ∀ x ∈ colPass1 c, x.isNaN = false ∧ x.isInf = false := by
  rw [colPass1_noInf c hp hn hfin]
  intro x hx
  obtain ⟨y, hy, rfl⟩ := List.mem_map.mp hx
  cases y with
  | nan => simp [FVal.isNaN, FVal.isInf]
  | pinf => exact absurd rfl (ne_pinf_of_hasP_false c hp _ hy)
  | ninf => exact absurd rfl (ne_ninf_of_hasN_false c hn _ hy)
  | fin q => simp [FVal.isNaN, FVal.isInf]

theorem colPass2_fixes (c : PdColumn) (hnonan : ∀ x ∈ c, x.isNaN = false)
    (hnoinf : ∀ x ∈ c, x.isInf = false) : colPass2 c = c := by
  unfold colPass2
  rw [replaceInfCol_no_inf c hnoinf, fillnaCol_no_nan c _ hnonan]

theorem colMean_nonfin_of_inf (c : PdColumn)
    (h : hasP c = true ∨ hasN c = true) :
    colMean c = .nan ∨ colMean c = .pinf ∨ colMean c = .ninf := by
  unfold colMean
  cases hp : hasP c <;> cases hn : hasN c <;> simp [hp, hn]
  rcases h with h | h
  · rw [hp] at h; cases h
  · rw [hn] at h; cases h

theorem replaceInf_colPass1 (c : PdColumn)
    (hinf : hasP c = true ∨ hasN c = true) :
    replaceInfCol (colPass1 c) =
      c.map fun x => if x.isNaN || x.isInf then .nan else x := by
  unfold colPass1 fillnaCol replaceInfCol
  rw [List.map_map]
  apply List.map_congr_left
  intro x _
  rcases colMean_nonfin_of_inf c hinf with hM | hM | hM <;> rw [hM] <;>
    cases x <;> simp [FVal.isNaN, FVal.isInf]

theorem finVals_toNan (c : PdColumn) :
    finVals (c.map fun x => if x.isNaN || x.isInf then FVal.nan else x)
      = finVals c := by
  induction c with
  | nil => rfl
  | cons x t ih =>
    cases x <;> simp [finVals, List.filterMap_cons, FVal.isNaN, FVal.isInf] <;>
      simpa [finVals] using ih

theorem hasP_toNan (c : PdColumn) :
    hasP (c.map fun x => if x.isNaN || x.isInf then FVal.nan else x) = false := by
  unfold hasP
  rw [List.any_map, List.any_eq_false]
  intro x _
  cases x <;> simp [FVal.isNaN, FVal.isInf]

theorem hasN_toNan (c : PdColumn) :
    hasN (c.map fun x => if x.isNaN || x.isInf then FVal.nan else x) = false := by
  unfold hasN
  rw [List.any_map, List.any_eq_false]
  intro x _
  cases x <;> simp [FVal.isNaN, FVal.isInf]

theorem colMean_toNan (c : PdColumn) (hfin : (finVals c).length ≠ 0) :
    colMean (c.map fun x => if x.isNaN || x.isInf then FVal.nan else x)
      = .fin (finMean c) := by
  rw [colMean_noInf _ (hasP_toNan c) (hasN_toNan c)
    (by rw [finVals_toNan]; exact hfin)]
  unfold finMean
  rw [finVals_toNan]

theorem colPass2_colPass1_inf (c : PdColumn)
    (hinf : hasP c = true ∨ hasN c = true) (hfin : (finVals c).length ≠ 0) :
    colPass2 (colPass1 c) =
      c.map fun x => if x.isNaN || x.isInf then .fin (finMean c) else x := by
  unfold colPass2
  rw [replaceInf_colPass1 c hinf, colMean_toNan c hfin]
  unfold fillnaCol
  rw [List.map_map]
  apply List.map_congr_left
  intro x _
  cases x <;> simp [FVal.isNaN, FVal.isInf]

theorem finVals_all_nan (c : PdColumn) (h : ∀ x ∈ c, x = FVal.nan) :
    finVals c = [] := by
  induction c with
  | nil => rfl
  | cons x t ih =>
    have hx : x = FVal.nan := h x (by simp)
    subst hx
    simp [finVals, List.filterMap_cons]
    simpa [finVals] using ih fun y hy => h y (by simp [hy])

theorem all_nan_passes (c : PdColumn) (h : ∀ x ∈ c, x = FVal.nan) :
    colPass1 c = c ∧ colPass2 c = c := by
  have hnoinf : ∀ x ∈ c, x.isInf = false := fun x hx => by
    rw [h x hx]; rfl
  have hp : hasP c = false := by
    unfold hasP
    rw [List.any_eq_false]
    intro x hx
    simp [h x hx]
  have hn : hasN c = false := by
    unfold hasN
    rw [List.any_eq_false]
    intro x hx
    simp [h x hx]
  have hM : colMean c = FVal.nan := by
    simp [colMean, hp, hn, finVals_all_nan c h]
  constructor
  · unfold colPass1
    rw [hM, fillnaCol_nanFill]
  · unfold colPass2
    rw [replaceInfCol_no_inf c hnoinf, hM, fillnaCol_nanFill]

theorem colPass1_keeps_pinf (c : PdColumn) (h : FVal.pinf ∈ c) :
    FVal.pinf ∈ Pandas.colPass1 c :=
  List.mem_map.mpr ⟨FVal.pinf, h, rfl⟩

theorem colPass1_keeps_ninf (c : PdColumn) (h : FVal.ninf ∈ c) :
    FVal.ninf ∈ Pandas.colPass1 c :=
  List.mem_map.mpr ⟨FVal.ninf, h, rfl⟩

/-- C2: after `preprocess_data`, the table keeps its shape; in a column
with at least one finite value, every cell that was originally missing
(NaN) or infinite equals the mean of that column's originally finite
values (computed from the table itself); a column whose cells are all
missing comes back unchanged — still all missing, without crashing. -/
theorem claim_C2 (t : PdTable) :
    (PVModelHandler.preprocess_data t).length = t.length ∧
    ∀ j, j < t.length →
      ((PVModelHandler.preprocess_data t).getD j []).length = (t.getD j []).length ∧
      ((Pandas.finVals (t.getD j [])).length ≠ 0 →
        ∀ i, i < (t.getD j []).length →
          (((t.getD j []).getD i FVal.nan).isNaN = true ∨
            ((t.getD j []).getD i FVal.nan).isInf = true) →
          ((PVModelHandler.preprocess_data t).getD j []).getD i FVal.nan
            = .fin (Pandas.finMean (t.getD j []))) ∧
      ((∀ x ∈ t.getD j [], x = FVal.nan) →
        (PVModelHandler.preprocess_data t).getD j [] = t.getD j []) := by
  have hlen : (PVModelHandler.preprocess_data t).length = t.length := by
    rw [Pandas.preprocess_eq]
    by_cases hg : Pandas.anyInf (t.map Pandas.colPass1) <;> simp [hg]
  refine ⟨hlen, ?_⟩
  intro j hj
  set c := t.getD j [] with hcdef
  have hcmem : c ∈ t := by
    rw [hcdef, List.getD_eq_getElem t [] hj]
    exact List.getElem_mem _
  have hcol : (PVModelHandler.preprocess_data t).getD j [] =
      (if Pandas.anyInf (t.map Pandas.colPass1) then
        Pandas.colPass2 (Pandas.colPass1 c) else Pandas.colPass1 c) := by
    rw [Pandas.preprocess_eq]
    by_cases hg : Pandas.anyInf (t.map Pandas.colPass1)
    · rw [if_pos hg, if_pos hg,
        List.getD_eq_getElem _ _ (by simpa using hj), List.getElem_map,
        ← List.getD_eq_getElem t [] hj]
    · rw [if_neg hg, if_neg hg,
        List.getD_eq_getElem _ _ (by simpa using hj), List.getElem_map,
        ← List.getD_eq_getElem t [] hj]
  refine ⟨?_, ?_, ?_⟩
  · rw [hcol]
    by_cases hg : Pandas.anyInf (t.map Pandas.colPass1) <;>
      simp [hg, Pandas.colPass1_length, Pandas.colPass2_length]
  · intro hfin i hi hcell
    by_cases hinf : Pandas.hasP c = true ∨ Pandas.hasN c = true
    · have hg : Pandas.anyInf (t.map Pandas.colPass1) = true := by
        rcases hinf with h | h
        · exact Pandas.anyInf_of_mem _ (Pandas.colPass1 c) FVal.pinf
            (List.mem_map_of_mem _ hcmem)
            (colPass1_keeps_pinf c (Pandas.pinf_mem_of_hasP c h)) rfl
        · exact Pandas.anyInf_of_mem _ (Pandas.colPass1 c) FVal.ninf
            (List.mem_map_of_mem _ hcmem)
            (colPass1_keeps_ninf c (Pandas.ninf_mem_of_hasN c h)) rfl
      rw [hcol, if_pos hg, Pandas.colPass2_colPass1_inf c hinf hfin,
        List.getD_eq_getElem _ _ (by simpa using hi), List.getElem_map,
        ← List.getD_eq_getElem c FVal.nan hi]
      have hcond : ((c.getD i FVal.nan).isNaN || (c.getD i FVal.nan).isInf) = true := by
        rcases hcell with h | h
        · rw [h, Bool.true_or]
        · rw [h, Bool.or_true]
      rw [if_pos hcond]
    · have hp : Pandas.hasP c = false := by
        cases hhp : Pandas.hasP c
        · rfl
        · exact absurd (Or.inl hhp) hinf
      have hn : Pandas.hasN c = false := by
        cases hhn : Pandas.hasN c
        · rfl
        · exact absurd (Or.inr hhn) hinf
      have hcx : c.getD i FVal.nan ∈ c := by
        rw [List.getD_eq_getElem c FVal.nan hi]
        exact List.getElem_mem _
      have hnan : (c.getD i FVal.nan).isNaN = true := by
        rcases hcell with h | h
        · exact h
        · exfalso
          cases hval : c.getD i FVal.nan with
          | pinf => exact Pandas.ne_pinf_of_hasP_false c hp _ (hval ▸ hcx) rfl
          | ninf => exact Pandas.ne_ninf_of_hasN_false c hn _ (hval ▸ hcx) rfl
          | nan => rw [hval] at h; cases h
          | fin q => rw [hval] at h; cases h
      have hres : (if Pandas.anyInf (t.map Pandas.colPass1) then
          Pandas.colPass2 (Pandas.colPass1 c) else Pandas.colPass1 c)
          = Pandas.colPass1 c := by
        by_cases hg : Pandas.anyInf (t.map Pandas.colPass1)
        · rw [if_pos hg, Pandas.colPass2_fixes _
            (fun x hx => (Pandas.colPass1_noInf_cells c hp hn hfin x hx).1)
            (fun x hx => (Pandas.colPass1_noInf_cells c hp hn hfin x hx).2)]
        · rw [if_neg hg]
      rw [hcol, hres, Pandas.colPass1_noInf c hp hn hfin,
        List.getD_eq_getElem _ _ (by simpa using hi), List.getElem_map,
        ← List.getD_eq_getElem c FVal.nan hi]
      rw [if_pos hnan]
  · intro hall
    obtain ⟨h1, h2⟩ := Pandas.all_nan_passes c hall
    rw [hcol]
    by_cases hg : Pandas.anyInf (t.map Pandas.colPass1)
    · rw [if_pos hg, h1, h2]
    · rw [if_neg hg, h1]

/-- The witness table: a column `[1, 3, +inf, NaN]` and an all-missing
column. -/
def tW : PdTable := [[.fin 1, .fin 3, .pinf, .nan], [.nan, .nan, .nan, .nan]]

/-- Witness for C2 on `tW`: the infinite and missing cells of column 0
both become the mean of its finite values (which is 2), and the
all-missing column 1 comes back unchanged. -/
theorem claim_C2_witness :
    (Pandas.finVals (tW.getD 0 [])).length ≠ 0 ∧
    ((PVModelHandler.preprocess_data tW).getD 0 []).getD 2 FVal.nan
      = .fin (Pandas.finMean (tW.getD 0 [])) ∧
    ((PVModelHandler.preprocess_data tW).getD 0 []).getD 3 FVal.nan
      = .fin (Pandas.finMean (tW.getD 0 [])) ∧
    Pandas.finMean (tW.getD 0 []) = 2 ∧
    (PVModelHandler.preprocess_data tW).getD 1 [] = tW.getD 1 [] :=
  ⟨by decide,
   ((claim_C2 tW).2 0 (by decide)).2.1 (by decide) 2 (by decide) (by decide),
   ((claim_C2 tW).2 0 (by decide)).2.1 (by decide) 3 (by decide) (by decide),
   by norm_num [Pandas.finMean, Pandas.finVals, tW, List.filterMap_cons],
   ((claim_C2 tW).2 1 (by decide)).2.2 (by decide)⟩
